import Mathlib

set_option maxRecDepth 8000

/-!
Verification development for the WGDashboard peer health monitor
(`src/modules/PeerHealthMonitor.py`).

The Python module is shallowly embedded: every stateful method becomes a pure
Lean function that takes the relevant state and the outcomes of external
effects (ICMP probe results, external command failures, configuration-store
write results) as explicit arguments and returns the updated state.  Times
are modelled as exact rationals (seconds); `datetime` values are naive
timestamps.  Functions that can raise out of the embedded code return
`Except PyErr` results, with the platform failure boundaries of
`datetime.fromtimestamp` (CPython 3.11, glibc, 64-bit, UTC) as explicit
constants.
-/

namespace PeerHealthMonitor

/-- Convert a list of decimal digit characters to its numeric value;
fails on an empty list or any non-digit character. -/
def digitsVal (cs : List Char) : Option Nat :=
  if cs = [] then none
  else if cs.all Char.isDigit then
    some (cs.foldl (fun a c => a * 10 + (c.toNat - 48)) 0)
  else none

/-- Python whitespace characters stripped by `str.strip` and accepted
around numeric literals. -/
def isSpaceChar (c : Char) : Bool :=
  c = ' ' || c = '\t' || c = '\n' || c = '\r' || c = '\x0b' || c = '\x0c'

/-- Drop the longest run of characters satisfying `p` from the front. -/
def dropLeading (p : Char → Bool) : List Char → List Char
  | [] => []
  | c :: rest => if p c then dropLeading p rest else c :: rest

/-- Strip whitespace from both ends (Python `str.strip()` /
the whitespace tolerance of `int()` and `float()`). -/
def trimChars (cs : List Char) : List Char :=
  (dropLeading isSpaceChar (dropLeading isSpaceChar cs).reverse).reverse

/-- Split on a single separator character, keeping empty segments —
Python `str.split(sep)` for a one-character separator. -/
def splitOnChar (sep : Char) : List Char → List (List Char)
  | [] => [[]]
  | c :: rest =>
    let r := splitOnChar sep rest
    if c = sep then [] :: r
    else
      match r with
      | [] => [[c]]
      | h :: t => (c :: h) :: t

/-- Whether the first list is a prefix of the second. -/
def isPrefixList : List Char → List Char → Bool
  | [], _ => true
  | _ :: _, [] => false
  | a :: as, b :: bs => a = b && isPrefixList as bs

/-- Auxiliary scan for `splitSeq`: `skip` counts separator characters
still to be consumed after a match. -/
def splitSeqGo (sep : List Char) : List Char → Nat → List (List Char)
  | [], _ => [[]]
  | _ :: rest, skip + 1 => splitSeqGo sep rest skip
  | c :: rest, 0 =>
    if isPrefixList sep (c :: rest) then
      [] :: splitSeqGo sep rest (sep.length - 1)
    else
      match splitSeqGo sep rest 0 with
      | [] => [[c]]
      | h :: t => (c :: h) :: t

/-- Split on a non-empty separator sequence, left to right,
non-overlapping — Python `str.split(sep)`. -/
def splitSeq (sep : List Char) (cs : List Char) : List (List Char) :=
  splitSeqGo sep cs 0

/-- Whether `sep` occurs as a contiguous subsequence — Python `sep in s`. -/
def containsSeq (sep : List Char) : List Char → Bool
  | [] => isPrefixList sep []
  | c :: rest => isPrefixList sep (c :: rest) || containsSeq sep rest

/-- ASCII lower-casing of one character (Python `str.lower()` restricted to
the ASCII range the config values use). -/
def lowerChar (c : Char) : Char :=
  if 'A' ≤ c ∧ c ≤ 'Z' then Char.ofNat (c.toNat + 32) else c

/-- ASCII lower-casing of a character list. -/
def lowerChars (cs : List Char) : List Char := cs.map lowerChar

/-- Model of Python `int(cs)` on a character sequence: optional surrounding
whitespace, optional sign, then decimal digits.  `none` models the
`ValueError` raise. -/
def pyIntChars (s : List Char) : Option Int :=
  match trimChars s with
  | '-' :: rest => (digitsVal rest).map (fun n => -(n : Int))
  | '+' :: rest => (digitsVal rest).map (fun n => (n : Int))
  | cs => (digitsVal cs).map (fun n => (n : Int))

/-- Model of Python `int(s)` on strings. -/
def pyInt (s : String) : Option Int := pyIntChars s.data

/-- Powers of ten, by structural recursion so that concrete instances
evaluate inside the kernel. -/
def pow10 : Nat → Nat
  | 0 => 1
  | n + 1 => 10 * pow10 n

/-- Value of an optional digit-run as a fraction (for float parsing):
`ds` are the digits after the decimal point. -/
def fracVal (ds : List Char) : Option Rat :=
  (digitsVal ds).map (fun n => mkRat n (pow10 ds.length))

/-- Model of Python `float(s)` restricted to finite decimal/scientific
literals: optional whitespace and sign, digits with an optional fractional
part, and an optional exponent.  Non-finite literals (`inf`, `nan`) and
anything else yield `none`, modelling the `ValueError` raise. -/
def pyFloat (s : String) : Option Rat :=
  let t := trimChars s.data
  let (sign, cs) : Int × List Char :=
    match t with
    | '-' :: r => (-1, r)
    | '+' :: r => (1, r)
    | r => (1, r)
  let (mant, expPart) : List Char × Option (List Char) :=
    match splitOnChar 'e' cs, splitOnChar 'E' cs with
    | [m, e], _ => (m, some e)
    | _, [m, e] => (m, some e)
    | _, _ => (cs, none)
  let mantVal : Option (Nat × Nat) :=
    match splitOnChar '.' mant with
    | [ip] => (digitsVal ip).map (fun n => (n, 0))
    | [ip, fp] =>
      if ip = [] ∧ fp = [] then none
      else (digitsVal (ip ++ fp)).map (fun n => (n, fp.length))
    | _ => none
  let expVal : Option Int :=
    match expPart with
    | none => some 0
    | some e =>
      match e with
      | '-' :: r => (digitsVal r).map (fun n => -(n : Int))
      | '+' :: r => (digitsVal r).map (fun n => (n : Int))
      | r => (digitsVal r).map (fun n => (n : Int))
  match mantVal, expVal with
  | some (m, fracLen), some e =>
    let e2 : Int := e - fracLen
    if 0 ≤ e2 then some (((sign * m * (pow10 e2.toNat : Int) : Int) : Rat))
    else some (mkRat (sign * m) (pow10 (-e2).toNat))
  | _, _ => none

/-- The Python exception classes that can travel through
`_parse_handshake_age`: its `except` clauses catch only `ValueError` (and
`IndexError`), so `OSError`, `OverflowError` and `TypeError` propagate to
the caller. -/
inductive PyErr where
  | valueError : PyErr
  | osError : PyErr
  | overflowError : PyErr
  | typeError : PyErr
deriving DecidableEq, Repr

deriving instance DecidableEq for Except

/-- Highest timestamp `datetime.fromtimestamp` converts: 10000-01-01 UTC;
at and beyond it the `datetime` constructor raises
`ValueError: year ... is out of range`. -/
def FROMTS_VALUE_LIMIT : Rat := 253402300800

/-- Timestamp from which the platform `localtime` fails (`tm_year`
overflows a C `int`), making `fromtimestamp` raise `OSError`; platform
constant of glibc on 64-bit Linux. -/
def FROMTS_OS_LIMIT : Rat := 67768036191676800

/-- Timestamp from which the conversion to `time_t` itself overflows,
making `fromtimestamp` raise
`OverflowError: timestamp out of range for platform time_t`. -/
def FROMTS_OVERFLOW_LIMIT : Rat := 9223372036854775808

/-- The failure behaviour of `datetime.fromtimestamp(ts)` for a positive
timestamp on the deployment platform (CPython 3.11, glibc, 64-bit, UTC):
`none` means the conversion succeeds (to the naive timestamp itself in
this model). -/
def fromtimestampErr (ts : Rat) : Option PyErr :=
  if FROMTS_OVERFLOW_LIMIT ≤ ts then some .overflowError
  else if FROMTS_OS_LIMIT ≤ ts then some .osError
  else if FROMTS_VALUE_LIMIT ≤ ts then some .valueError
  else none

/-- Days from 1970-01-01 of a proleptic Gregorian date with `y ≥ 1`
(the range `datetime` accepts), standard civil-calendar arithmetic. -/
def daysFromCivil (y m d : Int) : Int :=
  let y2 := if m ≤ 2 then y - 1 else y
  let era := y2 / 400
  let yoe := y2 - era * 400
  let mp := (m + 9) % 12
  let doy := (153 * mp + 2) / 5 + d - 1
  let doe := yoe * 365 + yoe / 4 - yoe / 100 + doy
  era * 146097 + doe - 719468

/-- Days in a month of the proleptic Gregorian calendar. -/
def daysInMonth (y m : Int) : Int :=
  if m = 2 then
    if y % 4 = 0 ∧ (y % 100 ≠ 0 ∨ y % 400 = 0) then 29 else 28
  else if m = 4 ∨ m = 6 ∨ m = 9 ∨ m = 11 then 30
  else 31

/-- Read exactly two digit characters as a number. -/
def twoDigits (cs : List Char) : Option Nat :=
  match cs with
  | [a, b] => digitsVal [a, b]
  | _ => none

/-- Parse the time-of-day tail accepted by `datetime.fromisoformat`:
`HH`, `HH:MM`, or `HH:MM:SS` with an optional `.fff`/`.ffffff` fraction.
Returns the time since midnight as a numerator/denominator pair of
seconds (the denominator a power of ten), kept in integers so concrete
instances evaluate inside the kernel. -/
def isoTimeVal (cs : List Char) : Option (Nat × Nat) := do
  let hmsf : (Nat × Nat × Nat × Nat × Nat) ←
    match splitOnChar ':' cs with
    | [hh] => do
      let h ← twoDigits hh
      pure (h, 0, 0, 0, 1)
    | [hh, mm] => do
      let h ← twoDigits hh
      let m ← twoDigits mm
      pure (h, m, 0, 0, 1)
    | [hh, mm, ssf] => do
      let h ← twoDigits hh
      let m ← twoDigits mm
      match splitOnChar '.' ssf with
      | [ss] => do
        let s ← twoDigits ss
        pure (h, m, s, 0, 1)
      | [ss, f] => do
        let s ← twoDigits ss
        if f.length = 3 ∨ f.length = 6 then
          let fd ← digitsVal f
          pure (h, m, s, fd, pow10 f.length)
        else none
      | _ => none
    | _ => none
  let (h, m, s, fd, den) := hmsf
  if h < 24 ∧ m < 60 ∧ s < 60 then
    pure ((h * 3600 + m * 60 + s) * den + fd, den)
  else none

/-- The result of `datetime.fromisoformat`: the instant as a timestamp in
seconds (wall-clock value; the offset of an aware result is never used
because subtracting it from a naive `now` raises first) and whether the
parsed datetime carries a timezone, i.e. is offset-aware. -/
structure IsoParse where
  ts : Rat
  aware : Bool
deriving DecidableEq, Repr

/-- Find the first `+`/`-`/`Z` in a time tail, splitting the tail into the
part before it and the part after it. -/
def findSplitSign : List Char → Option (List Char × Char × List Char)
  | [] => none
  | c :: rest =>
    if c = '+' || c = '-' || c = 'Z' then some ([], c, rest)
    else (findSplitSign rest).map (fun p => (c :: p.1, p.2.1, p.2.2))

/-- Whether a timezone-offset tail (`HH:MM` or `HH:MM:SS`) is one
`fromisoformat` accepts: field bounds as for times, total below 24 hours
(the `timezone` constructor's limit). -/
def validOffset (cs : List Char) : Bool :=
  match splitOnChar ':' cs with
  | [hh, mm] =>
    match twoDigits hh, twoDigits mm with
    | some h, some m => decide (m < 60 ∧ h * 3600 + m * 60 < 86400)
    | _, _ => false
  | [hh, mm, ss] =>
    match twoDigits hh, twoDigits mm, twoDigits ss with
    | some h, some m, some s2 =>
      decide (m < 60 ∧ s2 < 60 ∧ h * 3600 + m * 60 + s2 < 86400)
    | _, _, _ => false
  | _ => false

/-- Model of `datetime.fromisoformat` (CPython 3.11): a `YYYY-MM-DD` date,
optionally followed by one separator character and a time of day, itself
optionally followed by a timezone — `±HH:MM`, `±HH:MM:SS`, or a final `Z` —
which makes the result offset-aware.  `none` models the `ValueError` raise
on anything else. -/
def pyIso (s : String) : Option IsoParse := do
  let cs := s.data
  let datePart := cs.take 10
  let (y, m, d) ←
    match datePart with
    | [y1, y2, y3, y4, s1, m1, m2, s2, d1, d2] =>
      if s1 = '-' ∧ s2 = '-' then do
        let yv ← digitsVal [y1, y2, y3, y4]
        let mv ← twoDigits [m1, m2]
        let dv ← twoDigits [d1, d2]
        pure ((yv : Int), (mv : Int), (dv : Int))
      else none
    | _ => none
  if 1 ≤ y ∧ 1 ≤ m ∧ m ≤ 12 ∧ 1 ≤ d ∧ d ≤ daysInMonth y m then
    match cs.drop 10 with
    | [] => pure ⟨((daysFromCivil y m d * 86400 : Int) : Rat), false⟩
    | _ :: timeCs =>
      match findSplitSign timeCs with
      | none => do
        let (num, den) ← isoTimeVal timeCs
        pure ⟨mkRat (daysFromCivil y m d * 86400 * (den : Int) + (num : Int)) den,
          false⟩
      | some (before, sign, off) =>
        if sign = 'Z' then
          if off = [] then do
            let (num, den) ← isoTimeVal before
            pure ⟨mkRat (daysFromCivil y m d * 86400 * (den : Int) + (num : Int)) den,
              true⟩
          else none
        else
          if validOffset off then do
            let (num, den) ← isoTimeVal before
            pure ⟨mkRat (daysFromCivil y m d * 86400 * (den : Int) + (num : Int)) den,
              true⟩
          else none
  else none

/-- The `latest_handshake` value handed to `_parse_handshake_age`: Python
`None`, a string, a number (`int`/`float`, modelled as an exact rational),
or a `datetime` (modelled as a naive timestamp in seconds). -/
inductive Handshake where
  | hnone : Handshake
  | hstr : String → Handshake
  | hnum : Rat → Handshake
  | hdt : Rat → Handshake
deriving DecidableEq, Repr

/-- Python truthiness of a `latest_handshake` value: `not latest_handshake`. -/
def Handshake.isFalsy : Handshake → Bool
  | .hnone => true
  | .hstr s => s == ""
  | .hnum v => decide (v = 0)
  | .hdt _ => false

/-- The `try` block of `_parse_handshake_age` that parses the WGDashboard
timedelta string forms `H:MM:SS` and `N day(s), H:MM:SS`, returning the age
in seconds.  `none` models both a caught `ValueError`/`IndexError` and the
fall-through when the time part does not split into three fields. -/
def parseDurationStr (s : String) : Option Rat :=
  let dayStep : Option (Int × List Char) :=
    if containsSeq "day".data s.data then
      match splitSeq ", ".data s.data with
      | [] => none
      | dayPart :: rest =>
        match (splitOnChar ' ' dayPart).filter (fun w => w ≠ []) with
        | [] => none
        | w :: _ =>
          match pyIntChars w with
          | none => none
          | some d =>
            some (d, match rest with | tp :: _ => tp | [] => "0:0:0".data)
    else some (0, s.data)
  match dayStep with
  | none => none
  | some (days, timePart) =>
    match splitOnChar ':' timePart with
    | [hs, ms, ss] =>
      match pyIntChars hs, pyIntChars ms, pyIntChars ss with
      | some hh, some mm, some sec =>
        some ((days * 86400 + hh * 3600 + mm * 60 + sec : Int) : Rat)
      | _, _, _ => none
    | _ => none

/-- `_parse_handshake_age`: returns `.ok` with the age in seconds since
the last handshake (`none` for "no valid handshake"), or `.error` with the
exception that propagates out of the method.  `now` is the naive current
timestamp in seconds (`datetime.now()`).

Raise paths of the source, modelled explicitly:
* the numeric branch calls `datetime.fromtimestamp` with no `try` at all,
  so every conversion failure (`ValueError`, `OSError`, `OverflowError`)
  propagates;
* the numeric-string branch wraps the conversion in `except ValueError`
  only, so `OSError`/`OverflowError` propagate while a year-out-of-range
  `ValueError` is caught and falls through to `return None`;
* the ISO branch catches only `ValueError`; when `fromisoformat` succeeds
  with an offset-aware result, `datetime.now() - aware` raises an uncaught
  `TypeError`.  (On that path the source stores the aware datetime in
  `health.last_handshake` before raising; the record model keeps naive
  timestamps only and no stated property reads that field on an error
  path, so the write is not modelled.) -/
def parse_handshake_age (now : Rat) (latest_handshake : Handshake) :
    Except PyErr (Option Rat) :=
  if latest_handshake.isFalsy then .ok none
  else
    match latest_handshake with
    | .hstr s =>
      if s == "No Handshake" || s == "N/A" || s == "" || s == "0" then .ok none
      else
        match parseDurationStr s with
        | some age => .ok (some age)
        | none =>
          match pyIso s with
          | some r =>
            if r.aware then .error .typeError
            else .ok (some (now - r.ts))
          | none =>
            match pyFloat s with
            | some ts =>
              if ts > 0 then
                match fromtimestampErr ts with
                | none => .ok (some (now - ts))
                | some .valueError => .ok none
                | some e => .error e
              else .ok none
            | none => .ok none
    | .hnum v =>
      if v > 0 then
        match fromtimestampErr v with
        | none => .ok (some (now - v))
        | some e => .error e
      else .ok none
    | .hdt t => .ok (some (now - t))
    | .hnone => .ok none

/-- `PeerStatus` enum. -/
inductive PeerStatus where
  | online : PeerStatus
  | unpingable : PeerStatus
  | recent : PeerStatus
  | offline : PeerStatus
  | unknown : PeerStatus
deriving DecidableEq, Repr

/-- The string value of a `PeerStatus` member (`status.value`). -/
def PeerStatus.value : PeerStatus → String
  | .online => "online"
  | .unpingable => "unpingable"
  | .recent => "recent"
  | .offline => "offline"
  | .unknown => "unknown"

/-- `HANDSHAKE_ONLINE_TIMEOUT = timedelta(minutes=3)`, in seconds. -/
def HANDSHAKE_ONLINE_TIMEOUT : Rat := 180

/-- `HANDSHAKE_RECENT_TIMEOUT = timedelta(minutes=15)`, in seconds. -/
def HANDSHAKE_RECENT_TIMEOUT : Rat := 900

/-- `PeerHealthInfo` dataclass.  Timestamps are naive seconds. -/
structure PeerHealthInfo where
  public_key : String
  vpn_ip : String
  interface : String
  name : String := ""
  is_pingable : Bool := false
  last_ping_time : Option Rat := none
  last_ping_success : Bool := false
  ping_rtt_ms : Rat := 0
  ping_success_count : Nat := 0
  ping_fail_count : Nat := 0
  last_handshake : Option Rat := none
  status : PeerStatus := .unknown
  last_endpoint : String := ""
  endpoint_changed : Bool := false
deriving DecidableEq, Repr

/-- The aggregate `self._stats` counters (the two cycle-timing fields are
kept out: they carry no claim content). -/
structure Stats where
  total_pings : Nat := 0
  successful_pings : Nat := 0
  failed_pings : Nat := 0
  skipped_offline : Nat := 0
  endpoint_updates : Nat := 0
deriving DecidableEq, Repr

/-- The per-cycle `cycle_results` counters of `_run_health_cycle`. -/
structure CycleResults where
  checked : Nat := 0
  online : Nat := 0
  unpingable : Nat := 0
  recent : Nat := 0
  offline : Nat := 0
  skipped : Nat := 0
  pingable : Nat := 0
  endpoint_changes : Nat := 0
deriving DecidableEq, Repr

/-- Outcome of the external `icmplib.ping` call: a reply object with
`is_alive` true, a reply object with `is_alive` false, or a raised
exception of any kind (permission, resolution, timeout setup, internal). -/
inductive PingOutcome where
  | alive : Rat → Nat → Nat → PingOutcome
  | dead : Nat → PingOutcome
  | err : PingOutcome
deriving DecidableEq, Repr

/-- Whether the probe outcome is a success (`result.is_alive`). -/
def PingOutcome.success : PingOutcome → Bool
  | .alive _ _ _ => true
  | _ => false

/-- The dict returned by `_do_ping`. -/
structure PingResult where
  success : Bool
  rtt_ms : Rat
  packets_sent : Nat
  packets_received : Nat
deriving DecidableEq, Repr

/-- `_do_ping`: issue one probe with the given external outcome, updating
the aggregate statistics and returning the structured result dict.  Every
failure path (dead reply or raised exception) is caught and produces a
failed result; no exception escapes. -/
def do_ping (stats : Stats) (o : PingOutcome) : Stats × PingResult :=
  match o with
  | .alive rtt sent recv =>
    ({ stats with
        total_pings := stats.total_pings + 1
        successful_pings := stats.successful_pings + 1 },
     { success := true, rtt_ms := rtt, packets_sent := sent, packets_received := recv })
  | .dead sent =>
    ({ stats with
        total_pings := stats.total_pings + 1
        failed_pings := stats.failed_pings + 1 },
     { success := false, rtt_ms := 0, packets_sent := sent, packets_received := 0 })
  | .err =>
    ({ stats with failed_pings := stats.failed_pings + 1 },
     { success := false, rtt_ms := 0, packets_sent := 1, packets_received := 0 })

/-- `_update_peer_after_ping`. -/
def update_peer_after_ping (now : Rat) (h : PeerHealthInfo) (r : PingResult) :
    PeerHealthInfo :=
  { h with
      last_ping_time := some now
      last_ping_success := r.success
      ping_rtt_ms := r.rtt_ms
      ping_success_count := h.ping_success_count + (if r.success then 1 else 0)
      ping_fail_count := h.ping_fail_count + (if r.success then 0 else 1) }

/-- The `self._peer_health` map plus `self._stats`. -/
structure MonitorState where
  peers : String → Option PeerHealthInfo
  stats : Stats

/-- Pointwise update of the peer map at one key. -/
def updatePeer (m : String → Option PeerHealthInfo) (k : String)
    (v : PeerHealthInfo) : String → Option PeerHealthInfo :=
  fun x => if x = k then some v else m x

/-- The per-peer dict built by `_run_health_cycle` and passed to
`_check_peer`. -/
structure PeerInput where
  interface : String
  public_key : String
  name : String
  vpn_ip : String
  endpoint : String
  latest_handshake : Handshake
deriving DecidableEq, Repr

/-- `_check_peer`: process one reported peer.  `o` is the external outcome
of the probe in case one is issued.  Returns the new monitor state, the new
cycle counters, the list of VPN addresses actually probed, and the
exception propagating out of the method, if any: when the handshake parse
raises, the endpoint/identity mutations made before the parse call are
already committed to the shared record, but the `checked` counter is not
incremented, no probe is issued and no status is written — the caller
(`_run_health_cycle`) catches the exception per peer. -/
def check_peer (now : Rat) (st : MonitorState) (pi : PeerInput)
    (results : CycleResults) (o : PingOutcome) :
    MonitorState × CycleResults × List String × Option PyErr :=
  let pk := pi.public_key
  let h0 : PeerHealthInfo :=
    match st.peers pk with
    | some h => h
    | none =>
      { public_key := pk, vpn_ip := pi.vpn_ip, interface := pi.interface
        name := pi.name }
  let h1 := { h0 with vpn_ip := pi.vpn_ip, interface := pi.interface, name := pi.name }
  let cur := pi.endpoint
  let changed : Bool :=
    h1.last_endpoint != "" && h1.last_endpoint != cur && cur != "(none)"
  let h2 := { h1 with endpoint_changed := changed, last_endpoint := cur }
  let results1 :=
    { results with
        endpoint_changes := results.endpoint_changes + (if changed then 1 else 0) }
  let stats1 :=
    { st.stats with
        endpoint_updates := st.stats.endpoint_updates + (if changed then 1 else 0) }
  match parse_handshake_age now pi.latest_handshake with
  | .error e =>
    ({ peers := updatePeer st.peers pk h2, stats := stats1 },
     results1,
     [],
     some e)
  | .ok none =>
    let h3 := { h2 with status := .unknown }
    ({ peers := updatePeer st.peers pk h3
       stats := { stats1 with skipped_offline := stats1.skipped_offline + 1 } },
     { results1 with checked := results1.checked + 1, skipped := results1.skipped + 1 },
     [],
     none)
  | .ok (some age) =>
    let h2a := { h2 with last_handshake := some (now - age) }
    if HANDSHAKE_RECENT_TIMEOUT < age then
      let h3 := { h2a with status := .offline, is_pingable := false }
      ({ peers := updatePeer st.peers pk h3
         stats := { stats1 with skipped_offline := stats1.skipped_offline + 1 } },
       { results1 with
           checked := results1.checked + 1
           offline := results1.offline + 1
           skipped := results1.skipped + 1 },
       [],
       none)
    else
      let sp := do_ping stats1 o
      let h3 := update_peer_after_ping now h2a sp.2
      if age < HANDSHAKE_ONLINE_TIMEOUT then
        if sp.2.success then
          ({ peers := updatePeer st.peers pk { h3 with status := .online, is_pingable := true }
             stats := sp.1 },
           { results1 with
               checked := results1.checked + 1
               online := results1.online + 1
               pingable := results1.pingable + 1 },
           [pi.vpn_ip],
           none)
        else
          ({ peers := updatePeer st.peers pk { h3 with status := .unpingable, is_pingable := false }
             stats := sp.1 },
           { results1 with
               checked := results1.checked + 1
               unpingable := results1.unpingable + 1 },
           [pi.vpn_ip],
           none)
      else
        if sp.2.success then
          ({ peers := updatePeer st.peers pk { h3 with status := .recent, is_pingable := true }
             stats := sp.1 },
           { results1 with
               checked := results1.checked + 1
               recent := results1.recent + 1
               pingable := results1.pingable + 1 },
           [pi.vpn_ip],
           none)
        else
          ({ peers := updatePeer st.peers pk { h3 with status := .recent }
             stats := sp.1 },
           { results1 with
               checked := results1.checked + 1
               recent := results1.recent + 1 },
           [pi.vpn_ip],
           none)

/-- Python `round` to an integer: round half to even on exact rationals. -/
def pyRoundInt (x : Rat) : Int :=
  let f := x.floor
  let frac := x - (f : Rat)
  if frac < 1 / 2 then f
  else if frac > 1 / 2 then f + 1
  else if f % 2 = 0 then f else f + 1

/-- Python `round(x, 1)`. -/
def pyRound1 (x : Rat) : Rat := (pyRoundInt (x * 10) : Rat) / 10

/-- Python `round(x, 2)`. -/
def pyRound2 (x : Rat) : Rat := (pyRoundInt (x * 100) : Rat) / 100

/-- `PeerHealthInfo._ping_success_rate`. -/
def ping_success_rate (h : PeerHealthInfo) : Rat :=
  let total := h.ping_success_count + h.ping_fail_count
  if total = 0 then 0
  else pyRound1 ((h.ping_success_count : Rat) / (total : Rat) * 100)

/-- The dict produced by `PeerHealthInfo.to_dict`. -/
structure PeerSnapshot where
  public_key : String
  vpn_ip : String
  interface : String
  name : String
  is_pingable : Bool
  last_ping_time : Option Rat
  last_ping_success : Bool
  ping_rtt_ms : Rat
  success_rate : Rat
  status : String
  last_handshake : Option Rat
  last_endpoint : String
  endpoint_changed : Bool
deriving DecidableEq, Repr

/-- `PeerHealthInfo.to_dict`. -/
def to_dict (h : PeerHealthInfo) : PeerSnapshot :=
  { public_key := h.public_key
    vpn_ip := h.vpn_ip
    interface := h.interface
    name := h.name
    is_pingable := h.is_pingable
    last_ping_time := h.last_ping_time
    last_ping_success := h.last_ping_success
    ping_rtt_ms := pyRound2 h.ping_rtt_ms
    success_rate := ping_success_rate h
    status := h.status.value
    last_handshake := h.last_handshake
    last_endpoint := h.last_endpoint
    endpoint_changed := h.endpoint_changed }

/-- `ping_peer_now`: force an immediate probe of one named peer.  Returns
the snapshot (or `none` for an unregistered key), the new state, and the
list of VPN addresses probed. -/
def ping_peer_now (now : Rat) (st : MonitorState) (public_key : String)
    (o : PingOutcome) : Option PeerSnapshot × MonitorState × List String :=
  match st.peers public_key with
  | none => (none, st, [])
  | some health =>
    let sp := do_ping st.stats o
    let h2 := update_peer_after_ping now health sp.2
    (some (to_dict h2),
     { peers := updatePeer st.peers public_key h2, stats := sp.1 },
     [health.vpn_ip])

/-- `InterfaceHealthConfig` dataclass with its defaults. -/
structure InterfaceHealthConfig where
  enabled : Bool := true
  ping_interval : Int := 30
  set_keepalive : Bool := true
  keepalive_value : Int := 25
deriving DecidableEq, Repr

/-- The `self._interface_config` map. -/
def ConfigMap : Type := String → Option InterfaceHealthConfig

/-- Pointwise update of the interface-config map at one key. -/
def updateCfg (m : ConfigMap) (k : String) (v : InterfaceHealthConfig) : ConfigMap :=
  fun x => if x = k then some v else m x

/-- `_save_interface_config_to_ini`: `saveOk` is the outcome of
`dashboard_config.SaveConfig()` (false covering both a `False` return and a
raised, internally caught, exception).  Returns `False` when the interface
has no config entry, the save outcome otherwise; never raises. -/
def save_interface_config_to_ini (m : ConfigMap) (interface : String)
    (saveOk : Bool) : Bool :=
  match m interface with
  | none => false
  | some _ => saveOk

/-- The `config` dict argument of `set_interface_config`: each key is
optional, and numeric values are modelled as the integer that `int(...)`
yields on them. -/
structure HealthConfigUpdate where
  enabled : Option Bool := none
  ping_interval : Option Int := none
  set_keepalive : Option Bool := none
  keepalive_value : Option Int := none
deriving DecidableEq, Repr

/-- The four `if key in config` mutation steps of `set_interface_config`. -/
def apply_config_update (cfg : InterfaceHealthConfig) (u : HealthConfigUpdate) :
    InterfaceHealthConfig :=
  let c1 := match u.enabled with
    | some b => { cfg with enabled := b }
    | none => cfg
  let c2 := match u.ping_interval with
    | some v => { c1 with ping_interval := max 10 (min 300 v) }
    | none => c1
  let c3 := match u.set_keepalive with
    | some b => { c2 with set_keepalive := b }
    | none => c2
  match u.keepalive_value with
  | some v => { c3 with keepalive_value := max 10 (min 120 v) }
  | none => c3

/-- `set_interface_config`: mutate (creating a default entry if needed),
then persist; the persist outcome is computed and discarded, and the method
reports `True`. -/
def set_interface_config (m : ConfigMap) (interface : String)
    (u : HealthConfigUpdate) (saveOk : Bool) : ConfigMap × Bool :=
  let cfg0 : InterfaceHealthConfig :=
    match m interface with
    | some c => c
    | none => {}
  let cfg1 := apply_config_update cfg0 u
  let m1 := updateCfg m interface cfg1
  let _saved := save_interface_config_to_ini m1 interface saveOk
  (m1, true)

/-- `get_interface_config`: materialize and persist a default entry on
first access; returns the new map and the entry. -/
def get_interface_config (m : ConfigMap) (interface : String) (saveOk : Bool) :
    ConfigMap × InterfaceHealthConfig :=
  match m interface with
  | some c => (m, c)
  | none =>
    let c : InterfaceHealthConfig := {}
    let m1 := updateCfg m interface c
    let _saved := save_interface_config_to_ini m1 interface saveOk
    (m1, c)

/-- One `Health:`-namespaced INI section as read by `_load_config_from_ini`:
each option is absent or holds its raw string value. -/
structure IniHealthSection where
  enabled : Option String := none
  ping_interval : Option String := none
  set_keepalive : Option String := none
  keepalive_value : Option String := none
deriving DecidableEq, Repr

/-- One clamped numeric option of `_load_config_from_ini`: keep the current
value when the option is absent, otherwise parse it with `int()` (whose
failure, `none`, raises out of the load loop) and clamp it. -/
def clampOptField (cur : Int) (s : Option String) (lo hi : Int) : Option Int :=
  match s with
  | none => some cur
  | some str => (pyInt str).map (fun v => max lo (min hi v))

/-- Parse one INI section into a config entry, applying the four optional
fields in source order; `none` models an `int()` `ValueError` raise, which
aborts the whole load loop. -/
def loadSection (sec : IniHealthSection) : Option InterfaceHealthConfig :=
  let enabled2 : Bool :=
    match sec.enabled with
    | some s => lowerChars s.data == "true".data
    | none => true
  match clampOptField 30 sec.ping_interval 10 300 with
  | none => none
  | some pi2 =>
    let keep2 : Bool :=
      match sec.set_keepalive with
      | some s => lowerChars s.data == "true".data
      | none => true
    match clampOptField 25 sec.keepalive_value 10 120 with
    | none => none
    | some kv2 =>
      some { enabled := enabled2, ping_interval := pi2
             set_keepalive := keep2, keepalive_value := kv2 }

/-- `_load_config_from_ini`: walk the INI sections in order, loading every
`Health:`-prefixed one; a parse exception is caught at function level, so
it keeps the entries loaded so far and drops the rest. -/
def load_config_from_ini (m : ConfigMap) :
    List (String × IniHealthSection) → ConfigMap
  | [] => m
  | (name, sec) :: rest =>
    if isPrefixList "Health:".data name.data then
      match loadSection sec with
      | some cfg => load_config_from_ini (updateCfg m (String.mk (name.data.drop 7)) cfg) rest
      | none => m
    else load_config_from_ini m rest

/-- One configuration operation on the interface-config map. -/
inductive ConfigOp where
  | load : List (String × IniHealthSection) → ConfigOp
  | set : String → HealthConfigUpdate → Bool → ConfigOp
  | get : String → Bool → ConfigOp

/-- Apply one configuration operation to the map. -/
def applyOp (m : ConfigMap) : ConfigOp → ConfigMap
  | .load ss => load_config_from_ini m ss
  | .set i u ok => (set_interface_config m i u ok).1
  | .get i ok => (get_interface_config m i ok).1

/-- Apply a sequence of configuration operations. -/
def applyOps (m : ConfigMap) (ops : List ConfigOp) : ConfigMap :=
  ops.foldl applyOp m

/-- A peer as read from the tunnel device by `_ensure_keepalive`. -/
structure DevPeer where
  id : String
  persistent_keepalive : Int := 0
deriving DecidableEq, Repr

/-- `_ensure_keepalive`: walk the interface's peers in order and issue a
`persistent-keepalive` correction command for every peer whose current
value differs from the desired one.  `cmdFails k` tells whether the `k`-th
issued external command raises; the single `try` around the whole loop
catches that exception, so the loop stops there and the remaining peers are
skipped.  Returns the ids of the peers for which a command was attempted;
the function itself never raises. -/
def ensure_keepalive (peers : List DevPeer) (keepalive : Int)
    (cmdFails : Nat → Bool) : List String :=
  match peers with
  | [] => []
  | p :: rest =>
    if p.persistent_keepalive ≠ keepalive then
      if cmdFails 0 then [p.id]
      else p.id :: ensure_keepalive rest keepalive (fun k => cmdFails (k + 1))
    else ensure_keepalive rest keepalive cmdFails

/-- The ids of the peers whose keepalive differs from the desired value, in
device order. -/
def mismatchedIds (peers : List DevPeer) (keepalive : Int) : List String :=
  (peers.filter (fun p => p.persistent_keepalive ≠ keepalive)).map (fun p => p.id)

/-- One step of the inter-cycle sleep computation of `_monitor_loop`:
`if cfg.enabled and cfg.ping_interval < min_interval: min_interval = ...`. -/
def min_step (acc : Int) (cfg : InterfaceHealthConfig) : Int :=
  if cfg.enabled then (if cfg.ping_interval < acc then cfg.ping_interval else acc)
  else acc

/-- The inter-cycle sleep computation of `_monitor_loop`: start from 30 and
lower to any enabled interface's smaller interval. -/
def compute_min_interval (cfgs : List InterfaceHealthConfig) : Int :=
  cfgs.foldl min_step 30

/-- The sliced sleep of `_monitor_loop`: `running k` is the value of
`self._running` observed at the `k`-th iteration; returns how many
one-second sleeps are performed. -/
def sleep_slices (running : Nat → Bool) : Nat → Nat
  | 0 => 0
  | n + 1 =>
    if running 0 then 1 + sleep_slices (fun k => running (k + 1)) n else 0

/-- The complete inter-cycle wait: number of one-second sleeps taken. -/
def inter_cycle_sleep (cfgs : List InterfaceHealthConfig) (running : Nat → Bool) : Nat :=
  sleep_slices running (compute_min_interval cfgs).toNat

/-- The health record at a key after an operation (the operations under
study always leave a record at the key they touch). -/
def peerAfter (st : MonitorState) (pk : String) : PeerHealthInfo :=
  match st.peers pk with
  | some h => h
  | none => { public_key := pk, vpn_ip := "", interface := "" }

/-- The endpoint string recorded for a peer before the cycle: the record's
`last_endpoint`, or the dataclass default `""` for a first observation. -/
def prevEndpoint (st : MonitorState) (pk : String) : String :=
  match st.peers pk with
  | some h => h.last_endpoint
  | none => ""

/-- Modelled from the spec: the endpoint-change condition the claim states,
namely that the two endpoint strings differ and neither is the
`"(none)"` sentinel. -/
def spec_endpoint_changed (prev cur : String) : Prop :=
  prev ≠ cur ∧ prev ≠ "(none)" ∧ cur ≠ "(none)"

/-- Modelled from the spec: the sleep duration the claim states, namely the
minimum probe interval among enabled interfaces, falling back to 30 only
when no interface is enabled. -/
def spec_sleep_interval (cfgs : List InterfaceHealthConfig) : Int :=
  match (cfgs.filter (fun c => c.enabled)).map (fun c => c.ping_interval) with
  | [] => 30
  | i :: rest => rest.foldl min i

/-- All four config fields inside their clamp ranges. -/
def cfgInBounds (c : InterfaceHealthConfig) : Prop :=
  10 ≤ c.ping_interval ∧ c.ping_interval ≤ 300 ∧
  10 ≤ c.keepalive_value ∧ c.keepalive_value ≤ 120

/-- Every entry of the interface-config map is inside the clamp ranges. -/
def mapInBounds (m : ConfigMap) : Prop :=
  ∀ i c, m i = some c → cfgInBounds c

/-- Fixture: a bare registered peer record. -/
def wA : PeerHealthInfo :=
  { public_key := "A", vpn_ip := "10.0.0.2", interface := "wg0" }

/-- Fixture: a monitor state with the single registered peer `wA`. -/
def stW : MonitorState :=
  { peers := fun k => if k = "A" then some wA else none, stats := {} }

/-- Fixture: a record whose last recorded endpoint is the `"(none)"`
sentinel. -/
def wNone : PeerHealthInfo :=
  { public_key := "P", vpn_ip := "10.0.0.9", interface := "wg0"
    last_endpoint := "(none)" }

/-- Fixture: a monitor state holding `wNone`. -/
def stNone : MonitorState :=
  { peers := fun k => if k = "P" then some wNone else none, stats := {} }

/-- Fixture: the cycle input reporting peer `P` with a concrete endpoint
and no handshake. -/
def piP : PeerInput :=
  { interface := "wg0", public_key := "P", name := "", vpn_ip := "10.0.0.9"
    endpoint := "10.8.0.2:51820", latest_handshake := .hstr "No Handshake" }

/-- Fixture: an interface config enabled with a 120-second interval. -/
def cfg120 : InterfaceHealthConfig :=
  { enabled := true, ping_interval := 120, set_keepalive := true, keepalive_value := 25 }

/-- C7: a single probe never propagates a low-level failure: for every
prior statistics state and every failing outcome (dead reply or raised
exception of any cause), `_do_ping` returns a structured failed result with
success flag false, round-trip time 0 and zero packets received, and
increments the aggregate failure counter exactly once. -/
theorem do_ping_failure_structured (stats : Stats) (o : PingOutcome)
    (hfail : o.success = false) :
    (do_ping stats o).2.success = false ∧
    (do_ping stats o).2.rtt_ms = 0 ∧
    (do_ping stats o).2.packets_received = 0 ∧
    (do_ping stats o).1.failed_pings = stats.failed_pings + 1 := by
  cases o with
  | alive rtt sent recv => simp [PingOutcome.success] at hfail
  | dead sent => simp [do_ping]
  | err => simp [do_ping]

/-- Witness for C7 at a concrete failing probe. -/
theorem do_ping_failure_structured_witness :
    (PingOutcome.err).success = false ∧
    ((do_ping {} .err).2.success = false ∧
     (do_ping {} .err).2.rtt_ms = 0 ∧
     (do_ping {} .err).2.packets_received = 0 ∧
     (do_ping {} .err).1.failed_pings = ({} : Stats).failed_pings + 1) :=
  ⟨by decide, do_ping_failure_structured {} .err (by decide)⟩

/-- C4 counterexample: with a failing configuration store
(`SaveConfig` reporting failure), `set_interface_config` still reports
`True` to its caller, refuting the claim that the operation reports
failure; the save helper itself does report the failure internally. -/
theorem set_interface_config_failure_report_counterexample :
    (set_interface_config (fun _ => none) "wg0"
        { ping_interval := some 60 } false).2 = true ∧
    save_interface_config_to_ini
        (set_interface_config (fun _ => none) "wg0"
            { ping_interval := some 60 } false).1
        "wg0" false = false := by
  constructor
  · rfl
  · simp [set_interface_config, save_interface_config_to_ini, updateCfg]

/-- C4 amended: when persisting an interface configuration fails, the
configuration-update operation still reports success (`True`) to its
caller — the persist outcome is ignored — while the newly set clamped
values take effect in memory, leaving other interfaces untouched. -/
theorem set_interface_config_ignores_save_failure (m : ConfigMap)
    (interface : String) (u : HealthConfigUpdate) (saveOk : Bool) :
    (set_interface_config m interface u saveOk).2 = true ∧
    (set_interface_config m interface u saveOk).1 interface =
      some (apply_config_update
        (match m interface with | some c => c | none => {}) u) ∧
    (∀ j, j ≠ interface →
      (set_interface_config m interface u saveOk).1 j = m j) := by
  refine ⟨rfl, ?_, ?_⟩
  · simp [set_interface_config, updateCfg]
  · intro j hj
    simp [set_interface_config, updateCfg, hj]

/-- Witness for C4 amended at a concrete input with a failing store. -/
theorem set_interface_config_ignores_save_failure_witness :
    (set_interface_config (fun _ => none) "wg0"
        { keepalive_value := some 999 } false).2 = true ∧
    (set_interface_config (fun _ => none) "wg0"
        { keepalive_value := some 999 } false).1 "wg0" =
      some (apply_config_update
        (match (none : Option InterfaceHealthConfig) with
         | some c => c | none => {}) { keepalive_value := some 999 }) ∧
    (∀ j, j ≠ "wg0" →
      (set_interface_config (fun _ => none) "wg0"
          { keepalive_value := some 999 } false).1 j = none) :=
  set_interface_config_ignores_save_failure (fun _ => none) "wg0"
    { keepalive_value := some 999 } false

/-- When no issued command raises, `_ensure_keepalive` attempts a
correction for exactly the mismatched peers, in order. -/
theorem ensure_keepalive_all_ok (peers : List DevPeer) (kv : Int)
    (f : Nat → Bool) (hf : ∀ k, f k = false) :
    ensure_keepalive peers kv f = mismatchedIds peers kv := by
  induction peers generalizing f with
  | nil => rfl
  | cons p rest ih =>
    by_cases hne : p.persistent_keepalive ≠ kv
    · simp only [ensure_keepalive, mismatchedIds, if_pos hne, hf 0,
        Bool.false_eq_true, if_false, List.filter_cons]
      have : decide (p.persistent_keepalive ≠ kv) = true := by simpa using hne
      simp only [this, if_true, List.map_cons]
      exact congrArg _ (ih _ (fun k => hf (k + 1)))
    · simp only [ensure_keepalive, mismatchedIds, if_neg hne, List.filter_cons]
      have : decide (p.persistent_keepalive ≠ kv) = false := by simpa using hne
      simp only [this]
      exact ih f hf

/-- When the `j`-th issued command is the first to raise,
`_ensure_keepalive` attempts corrections only for the first `j + 1`
mismatched peers and skips the rest of the interface's peers. -/
theorem ensure_keepalive_first_fail (peers : List DevPeer) (kv : Int)
    (f : Nat → Bool) (j : Nat) (hlt : ∀ k, k < j → f k = false)
    (hj : f j = true) :
    ensure_keepalive peers kv f = (mismatchedIds peers kv).take (j + 1) := by
  induction peers generalizing f j with
  | nil => simp [ensure_keepalive, mismatchedIds]
  | cons p rest ih =>
    by_cases hne : p.persistent_keepalive ≠ kv
    · have hmm : mismatchedIds (p :: rest) kv = p.id :: mismatchedIds rest kv := by
        simp only [mismatchedIds, List.filter_cons]
        have : decide (p.persistent_keepalive ≠ kv) = true := by simpa using hne
        simp [this]
      rw [hmm]
      cases j with
      | zero =>
        simp only [ensure_keepalive, if_pos hne, hj, if_true, List.take]
      | succ j2 =>
        have h0 : f 0 = false := hlt 0 (Nat.succ_pos j2)
        simp only [ensure_keepalive, if_pos hne, h0, Bool.false_eq_true, if_false]
        have := ih (fun k => f (k + 1)) j2
          (fun k hk => hlt (k + 1) (Nat.succ_lt_succ hk)) hj
        rw [this]
        rfl
    · have hmm : mismatchedIds (p :: rest) kv = mismatchedIds rest kv := by
        simp only [mismatchedIds, List.filter_cons]
        have : decide (p.persistent_keepalive ≠ kv) = false := by simpa using hne
        simp [this]
      rw [hmm]
      simp only [ensure_keepalive, if_neg hne]
      exact ih f j hlt hj

/-- C5 counterexample: two peers both need a keepalive correction; the
command for the first raises, and the second peer receives no correction
in that cycle, although with no failure it would have — refuting the claim
that an error for one peer leaves every other peer's processing
unaffected. -/
theorem ensure_keepalive_abort_counterexample :
    ensure_keepalive [⟨"p1", 0⟩, ⟨"p2", 0⟩] 25 (fun k => k == 0) = ["p1"] ∧
    ensure_keepalive [⟨"p1", 0⟩, ⟨"p2", 0⟩] 25 (fun _ => false) = ["p1", "p2"] ∧
    (⟨"p2", 0⟩ : DevPeer).persistent_keepalive ≠ 25 := by
  refine ⟨rfl, rfl, by decide⟩

/-- C5 amended: a raising keepalive correction command is caught inside
`_ensure_keepalive` (so the health-check cycle itself continues), but it
aborts keepalive enforcement for the remaining peers of that interface in
that cycle: if the `j`-th issued command is the first to raise, exactly the
first `j + 1` mismatched peers receive a correction attempt; only when no
command raises do all mismatched peers receive one. -/
theorem ensure_keepalive_failure_isolation (peers : List DevPeer) (kv : Int)
    (f : Nat → Bool) :
    ((∀ k, f k = false) → ensure_keepalive peers kv f = mismatchedIds peers kv) ∧
    (∀ j, (∀ k, k < j → f k = false) → f j = true →
      ensure_keepalive peers kv f = (mismatchedIds peers kv).take (j + 1)) :=
  ⟨ensure_keepalive_all_ok peers kv f,
   fun j hlt hj => ensure_keepalive_first_fail peers kv f j hlt hj⟩

/-- Witness for C5 amended: first issued command raises at index 0, so
exactly one mismatched peer is attempted. -/
theorem ensure_keepalive_failure_isolation_witness :
    ((fun k : Nat => k == 0) 0 = true) ∧
    ensure_keepalive [⟨"p1", 0⟩, ⟨"p2", 0⟩] 25 (fun k => k == 0) =
      (mismatchedIds [⟨"p1", 0⟩, ⟨"p2", 0⟩] 25).take 1 :=
  ⟨by decide,
   (ensure_keepalive_failure_isolation [⟨"p1", 0⟩, ⟨"p2", 0⟩] 25
       (fun k => k == 0)).2 0 (fun k hk => absurd hk (Nat.not_lt_zero k))
     (by decide)⟩

/-- The sleep fold never rises above its accumulator. -/
theorem min_step_fold_le (cfgs : List InterfaceHealthConfig) (acc : Int) :
    cfgs.foldl min_step acc ≤ acc := by
  induction cfgs generalizing acc with
  | nil => exact le_refl acc
  | cons c rest ih =>
    have h1 : min_step acc c ≤ acc := by
      unfold min_step
      split_ifs with h1 h2
      · exact le_of_lt h2
      · exact le_refl acc
      · exact le_refl acc
    exact le_trans (ih (min_step acc c)) h1

/-- The sleep fold is at most every enabled interface's interval. -/
theorem min_step_fold_le_mem (cfgs : List InterfaceHealthConfig) (acc : Int)
    (c : InterfaceHealthConfig) (hc : c ∈ cfgs) (he : c.enabled = true) :
    cfgs.foldl min_step acc ≤ c.ping_interval := by
  induction cfgs generalizing acc with
  | nil => cases hc
  | cons d rest ih =>
    rcases List.mem_cons.mp hc with rfl | hmem
    · have h1 : min_step acc c ≤ c.ping_interval := by
        unfold min_step
        rw [if_pos he]
        split_ifs with h
        · exact le_refl _
        · omega
      exact le_trans (min_step_fold_le rest _) h1
    · exact ih _ hmem

/-- The sleep fold result is the accumulator or some enabled interval. -/
theorem min_step_fold_eq_or (cfgs : List InterfaceHealthConfig) (acc : Int) :
    cfgs.foldl min_step acc = acc ∨
    ∃ c, c ∈ cfgs ∧ c.enabled = true ∧
      cfgs.foldl min_step acc = c.ping_interval := by
  induction cfgs generalizing acc with
  | nil => left; rfl
  | cons d rest ih =>
    simp only [List.foldl_cons]
    rcases ih (min_step acc d) with h | ⟨c, hc, he, heq⟩
    · rw [h]
      unfold min_step
      split_ifs with hd hlt
      · right; exact ⟨d, List.mem_cons_self d rest, hd, rfl⟩
      · left; rfl
      · left; rfl
    · right; exact ⟨c, List.mem_cons_of_mem d hc, he, heq⟩

/-- Each one-second slice is taken only while the running flag holds. -/
theorem sleep_slices_le (r : Nat → Bool) (n : Nat) : sleep_slices r n ≤ n := by
  induction n generalizing r with
  | zero => exact le_refl 0
  | succ m ih =>
    unfold sleep_slices
    split_ifs with h
    · have := ih (fun k => r (k + 1))
      omega
    · exact Nat.zero_le _

/-- Every slice actually slept saw the running flag still set. -/
theorem sleep_slices_runs (r : Nat → Bool) (n : Nat) :
    ∀ k, k < sleep_slices r n → r k = true := by
  induction n generalizing r with
  | zero => intro k hk; simp [sleep_slices] at hk
  | succ m ih =>
    intro k hk
    unfold sleep_slices at hk
    split_ifs at hk with h
    · cases k with
      | zero => exact h
      | succ k2 => exact ih (fun i => r (i + 1)) k2 (by omega)
    · omega

/-- If the sleep stopped early, the slice it stopped at saw the flag
cleared. -/
theorem sleep_slices_stop (r : Nat → Bool) (n : Nat)
    (h : sleep_slices r n < n) : r (sleep_slices r n) = false := by
  induction n generalizing r with
  | zero => omega
  | succ m ih =>
    unfold sleep_slices at h ⊢
    split_ifs at h ⊢ with hr
    · have := ih (fun k => r (k + 1)) (by omega)
      simpa [Nat.add_comm] using this
    · simpa using hr

/-- C3 counterexample: a single enabled interface with a 120-second probe
interval yields an inter-cycle value of 30, not the 120 the claim states
(the minimum enabled interval, per the spec-modelled
`spec_sleep_interval`). -/
theorem sleep_interval_spec_counterexample :
    compute_min_interval [cfg120] = 30 ∧
    spec_sleep_interval [cfg120] = 120 ∧
    compute_min_interval [cfg120] ≠ spec_sleep_interval [cfg120] := by
  refine ⟨rfl, rfl, by decide⟩

/-- C3 amended: the inter-cycle sleep value is the minimum of the 30-second
default and every enabled interface's probe interval — the default is an
upper bound as well as a fallback, so an enabled 120-second interval yields
a 30-second sleep — and the sleep is taken in one-second slices, each slice
taken only while the stop flag is unset, stopping at the first slice that
observes it cleared. -/
theorem sleep_interval_characterization (cfgs : List InterfaceHealthConfig)
    (running : Nat → Bool) :
    compute_min_interval cfgs ≤ 30 ∧
    (∀ c ∈ cfgs, c.enabled = true → compute_min_interval cfgs ≤ c.ping_interval) ∧
    (compute_min_interval cfgs = 30 ∨
      ∃ c ∈ cfgs, c.enabled = true ∧ compute_min_interval cfgs = c.ping_interval) ∧
    inter_cycle_sleep cfgs running ≤ (compute_min_interval cfgs).toNat ∧
    (∀ k, k < inter_cycle_sleep cfgs running → running k = true) ∧
    (inter_cycle_sleep cfgs running < (compute_min_interval cfgs).toNat →
      running (inter_cycle_sleep cfgs running) = false) := by
  refine ⟨min_step_fold_le cfgs 30, ?_, ?_, ?_, ?_, ?_⟩
  · intro c hc he
    exact min_step_fold_le_mem cfgs 30 c hc he
  · rcases min_step_fold_eq_or cfgs 30 with h | ⟨c, hc, he, heq⟩
    · left; exact h
    · right; exact ⟨c, hc, he, heq⟩
  · exact sleep_slices_le running _
  · exact sleep_slices_runs running _
  · exact sleep_slices_stop running _

/-- Witness for C3 amended at a concrete enabled 120-second interface. -/
theorem sleep_interval_characterization_witness :
    compute_min_interval [cfg120] ≤ 30 ∧
    inter_cycle_sleep [cfg120] (fun _ => true) ≤
      (compute_min_interval [cfg120]).toNat :=
  ⟨(sleep_interval_characterization [cfg120] (fun _ => true)).1,
   (sleep_interval_characterization [cfg120] (fun _ => true)).2.2.2.1⟩

/-- A clamp to `[lo, hi]` with `lo ≤ hi` lands in `[lo, hi]`. -/
theorem clamp_mem (lo hi v : Int) (h : lo ≤ hi) :
    lo ≤ max lo (min hi v) ∧ max lo (min hi v) ≤ hi :=
  ⟨le_max_left _ _, max_le h (min_le_left _ _)⟩

/-- The dataclass defaults are inside the clamp ranges. -/
theorem default_cfgInBounds : cfgInBounds {} := by
  refine ⟨?_, ?_, ?_, ?_⟩ <;> decide

/-- `set_interface_config`'s mutation steps keep a config inside the clamp
ranges. -/
theorem apply_config_update_inBounds (c : InterfaceHealthConfig)
    (u : HealthConfigUpdate) (hc : cfgInBounds c) :
    cfgInBounds (apply_config_update c u) := by
  obtain ⟨h1, h2, h3, h4⟩ := hc
  rcases u with ⟨e, p, k, kv⟩
  unfold apply_config_update
  cases e <;> cases p <;> cases k <;> cases kv <;>
    refine ⟨?_, ?_, ?_, ?_⟩ <;>
    first
      | assumption
      | exact le_max_left _ _
      | exact max_le (by decide) (min_le_left _ _)

/-- A clamped optional field lands in `[lo, hi]` when the current value
already is. -/
theorem clampOptField_mem (cur : Int) (s : Option String) (lo hi : Int)
    (hcur : lo ≤ cur ∧ cur ≤ hi) (hlh : lo ≤ hi) (v : Int)
    (h : clampOptField cur s lo hi = some v) : lo ≤ v ∧ v ≤ hi := by
  cases s with
  | none =>
    simp only [clampOptField] at h
    cases h
    exact hcur
  | some str =>
    simp only [clampOptField] at h
    cases hpi : pyInt str with
    | none => rw [hpi, Option.map_none'] at h; cases h
    | some w =>
      rw [hpi, Option.map_some'] at h
      cases h
      exact clamp_mem lo hi w hlh

/-- Every entry produced by parsing an INI section is inside the clamp
ranges. -/
theorem loadSection_inBounds (sec : IniHealthSection)
    (c : InterfaceHealthConfig) (h : loadSection sec = some c) :
    cfgInBounds c := by
  unfold loadSection at h
  cases hp : clampOptField 30 sec.ping_interval 10 300 with
  | none => rw [hp] at h; cases h
  | some pi2 =>
    rw [hp] at h
    cases hk : clampOptField 25 sec.keepalive_value 10 120 with
    | none => rw [hk] at h; cases h
    | some kv2 =>
      rw [hk] at h
      cases h
      have b1 := clampOptField_mem 30 sec.ping_interval 10 300
        (by decide) (by decide) pi2 hp
      have b2 := clampOptField_mem 25 sec.keepalive_value 10 120
        (by decide) (by decide) kv2 hk
      exact ⟨b1.1, b1.2, b2.1, b2.2⟩

/-- Updating one entry with an in-range config preserves the map
invariant. -/
theorem mapInBounds_updateCfg (m : ConfigMap) (k : String)
    (v : InterfaceHealthConfig) (hm : mapInBounds m) (hv : cfgInBounds v) :
    mapInBounds (updateCfg m k v) := by
  intro i c hc
  unfold updateCfg at hc
  split_ifs at hc with h
  · cases hc; exact hv
  · exact hm i c hc

/-- Loading from the INI preserves the map invariant. -/
theorem load_config_from_ini_inBounds (ss : List (String × IniHealthSection))
    (m : ConfigMap) (hm : mapInBounds m) :
    mapInBounds (load_config_from_ini m ss) := by
  induction ss generalizing m with
  | nil => exact hm
  | cons p rest ih =>
    obtain ⟨name, sec⟩ := p
    simp only [load_config_from_ini]
    split_ifs with hpre
    · cases hsec : loadSection sec with
      | none => exact hm
      | some cfg =>
        exact ih _ (mapInBounds_updateCfg m _ cfg hm (loadSection_inBounds sec cfg hsec))
    · exact ih m hm

/-- Every configuration operation preserves the map invariant. -/
theorem applyOp_inBounds (m : ConfigMap) (op : ConfigOp) (hm : mapInBounds m) :
    mapInBounds (applyOp m op) := by
  cases op with
  | load ss => exact load_config_from_ini_inBounds ss m hm
  | set i u ok =>
    have hc0 : cfgInBounds (match m i with | some c => c | none => {}) := by
      cases hmi : m i with
      | none => exact default_cfgInBounds
      | some c => exact hm i c hmi
    exact mapInBounds_updateCfg m i _ hm (apply_config_update_inBounds _ u hc0)
  | get i ok =>
    simp only [applyOp, get_interface_config]
    cases hmi : m i with
    | none => simp only; exact mapInBounds_updateCfg m i _ hm default_cfgInBounds
    | some c => simp only; exact hm

/-- A sequence of configuration operations preserves the map invariant. -/
theorem applyOps_inBounds (ops : List ConfigOp) (m : ConfigMap)
    (hm : mapInBounds m) : mapInBounds (applyOps m ops) := by
  induction ops generalizing m with
  | nil => exact hm
  | cons op rest ih => exact ih (applyOp m op) (applyOp_inBounds m op hm)

/-- C8: starting from an empty interface-config map, after any sequence of
configuration operations (INI loads, explicit updates, default
materializations) every entry has probe interval in `[10, 300]` and
keepalive value in `[10, 120]`; in particular setting the probe interval to
1 stores 10, and setting the keepalive to 999 stores 120. -/
theorem interface_config_bounds_invariant (ops : List ConfigOp) :
    mapInBounds (applyOps (fun _ => none) ops) ∧
    ((set_interface_config (fun _ => none) "wg0"
        { ping_interval := some 1 } true).1 "wg0").map
      (fun c => c.ping_interval) = some 10 ∧
    ((set_interface_config (fun _ => none) "wg0"
        { keepalive_value := some 999 } true).1 "wg0").map
      (fun c => c.keepalive_value) = some 120 := by
  refine ⟨?_, by decide, by decide⟩
  exact applyOps_inBounds ops _ (fun i c hc => by cases hc)

/-- Witness for C8: after one update with out-of-range values, the stored
entry is inside the clamp ranges. -/
theorem interface_config_bounds_invariant_witness :
    applyOps (fun _ => none)
        [.set "wg0" { ping_interval := some 1, keepalive_value := some 999 } false]
        "wg0" =
      some { enabled := true, ping_interval := 10, set_keepalive := true
             keepalive_value := 120 } ∧
    cfgInBounds { enabled := true, ping_interval := 10, set_keepalive := true
                  keepalive_value := 120 } :=
  ⟨by decide,
   (interface_config_bounds_invariant
       [.set "wg0" { ping_interval := some 1, keepalive_value := some 999 } false]).1
     "wg0" _ (by decide)⟩

/-- C6: the code violates the claim on both of its safety conjuncts.
A numeric timestamp beyond the platform `fromtimestamp` range — as a
number or as a numeric string — raises an uncaught `OverflowError` out of
`_parse_handshake_age` (the numeric branch has no `try`, the string branch
catches only `ValueError`); an offset-aware ISO string makes the naive
`datetime.now()` subtraction raise an uncaught `TypeError`; and the
duration string `"0:00:00"` (value 0 ≤ 0) parses to age 0 instead of
unknown, because the ≤ 0 guard of the source applies only to timestamp
interpretations.  Year-out-of-range timestamps given as strings do fall
through to unknown, since there the raised `ValueError` is caught. -/
theorem parse_handshake_age_raise_paths :
    parse_handshake_age 1000 (.hnum ((pow10 300 : Nat) : Rat)) = .error .overflowError ∧
    parse_handshake_age 1000 (.hstr "1e300") = .error .overflowError ∧
    parse_handshake_age 1000 (.hnum ((pow10 17 : Nat) : Rat)) = .error .osError ∧
    parse_handshake_age 1000 (.hnum ((pow10 12 : Nat) : Rat)) = .error .valueError ∧
    parse_handshake_age 1000 (.hstr "1e12") = .ok none ∧
    parse_handshake_age 1000 (.hstr "2024-01-01T00:00:00+00:00") =
      .error .typeError ∧
    parse_handshake_age 1000 (.hstr "0:00:00") = .ok (some 0) ∧
    parse_handshake_age 1000 (.hstr "-1:30:00") = .ok (some (-1800)) ∧
    (0 : Rat) ≤ 0 := by
  refine ⟨by decide, by decide, by decide, by decide, by decide, by decide,
    by decide, by decide, by decide⟩

/-- The sanitization the parser does provide: sentinels, non-positive
numeric timestamps and unrecognized forms all resolve to unknown without
raising; duration strings resolve to their encoded duration even when
non-positive; only out-of-range positive timestamps and aware ISO strings
raise. -/
theorem parse_handshake_age_sanitization (now : Rat) :
    parse_handshake_age now (.hstr "No Handshake") = .ok none ∧
    parse_handshake_age now (.hstr "N/A") = .ok none ∧
    parse_handshake_age now (.hstr "") = .ok none ∧
    parse_handshake_age now (.hstr "0") = .ok none ∧
    parse_handshake_age now .hnone = .ok none ∧
    (∀ v : Rat, v ≤ 0 → parse_handshake_age now (.hnum v) = .ok none) ∧
    (∀ v : Rat, 0 < v → ∀ e, fromtimestampErr v = some e →
      parse_handshake_age now (.hnum v) = .error e) ∧
    (∀ s : String, ∀ ts : Rat, s ≠ "" → parseDurationStr s = none →
      pyIso s = none → pyFloat s = some ts → ts ≤ 0 →
      parse_handshake_age now (.hstr s) = .ok none) ∧
    (∀ s : String, s ≠ "" → parseDurationStr s = none → pyIso s = none →
      pyFloat s = none → parse_handshake_age now (.hstr s) = .ok none) ∧
    (∀ s : String, ∀ a : Rat, s ≠ "" → s ≠ "No Handshake" → s ≠ "N/A" →
      s ≠ "0" → parseDurationStr s = some a →
      parse_handshake_age now (.hstr s) = .ok (some a)) ∧
    (∀ s : String, ∀ r : IsoParse, s ≠ "" → s ≠ "No Handshake" →
      s ≠ "N/A" → s ≠ "0" → parseDurationStr s = none → pyIso s = some r →
      r.aware = true → parse_handshake_age now (.hstr s) = .error .typeError) := by
  refine ⟨rfl, rfl, rfl, rfl, rfl, ?_, ?_, ?_, ?_, ?_, ?_⟩
  · intro v hv
    by_cases h0 : v = 0
    · subst h0; rfl
    · simp [parse_handshake_age, Handshake.isFalsy, h0, not_lt.mpr hv]
  · intro v hv e he
    have h0 : ¬ v = 0 := by
      intro h; rw [h] at hv; exact lt_irrefl 0 hv
    simp [parse_handshake_age, Handshake.isFalsy, h0, hv, he]
  · intro s ts hne hd hiso hf hts
    simp only [parse_handshake_age, Handshake.isFalsy, hd, hiso, hf]
    split_ifs with h1 h2 h3
    · rfl
    · rfl
    · exact absurd h3 (not_lt.mpr hts)
    · rfl
  · intro s hne hd hiso hf
    simp only [parse_handshake_age, Handshake.isFalsy, hd, hiso, hf]
    split_ifs <;> rfl
  · intro s a hne hs1 hs2 hs3 hd
    have hfalse : Handshake.isFalsy (.hstr s) = false := by
      simp [Handshake.isFalsy, hne]
    have hsent : (s == "No Handshake" || s == "N/A" || s == "" || s == "0") = false := by
      simp [hs1, hs2, hne, hs3]
    simp [parse_handshake_age, hfalse, hsent, hd]
  · intro s r hne hs1 hs2 hs3 hd hiso haware
    have hfalse : Handshake.isFalsy (.hstr s) = false := by
      simp [Handshake.isFalsy, hne]
    have hsent : (s == "No Handshake" || s == "N/A" || s == "" || s == "0") = false := by
      simp [hs1, hs2, hne, hs3]
    simp [parse_handshake_age, hfalse, hsent, hd, hiso, haware]

/-- Concrete instances of the sanitization behaviours. -/
theorem parse_handshake_age_sanitization_witness :
    ((-300 : Rat) ≤ 0 ∧ parse_handshake_age 1000 (.hnum (-300)) = .ok none) ∧
    (("bogus" : String) ≠ "" ∧ parseDurationStr "bogus" = none ∧
     pyIso "bogus" = none ∧ pyFloat "bogus" = none ∧
     parse_handshake_age 1000 (.hstr "bogus") = .ok none) :=
  ⟨⟨by decide,
    (parse_handshake_age_sanitization 1000).2.2.2.2.2.1 (-300) (by decide)⟩,
   ⟨by decide, by decide, by decide, by decide,
    (parse_handshake_age_sanitization 1000).2.2.2.2.2.2.2.2.1 "bogus"
      (by decide) (by decide) (by decide) (by decide)⟩⟩

/-- The success flag of the `_do_ping` result equals the raw outcome's. -/
theorem do_ping_success_eq (stats : Stats) (o : PingOutcome) :
    (do_ping stats o).2.success = o.success := by
  cases o <;> rfl

/-- C9: forcing an immediate probe of an unregistered peer returns
"not found" (`None`) and leaves the whole monitor state unchanged, while
for a registered peer it issues exactly one probe to the record's VPN
address — whatever the peer's handshake age or status — and returns the
refreshed snapshot of the updated record. -/
theorem ping_peer_now_contract (now : Rat) (st : MonitorState) (pk : String)
    (o : PingOutcome) :
    (st.peers pk = none → ping_peer_now now st pk o = (none, st, [])) ∧
    (∀ h, st.peers pk = some h →
      (ping_peer_now now st pk o).2.2 = [h.vpn_ip] ∧
      (ping_peer_now now st pk o).1 =
        some (to_dict (update_peer_after_ping now h (do_ping st.stats o).2))) := by
  constructor
  · intro hn
    simp [ping_peer_now, hn]
  · intro h hh
    simp [ping_peer_now, hh]

/-- Witness for C9: an unregistered and a registered peer of a concrete
state. -/
theorem ping_peer_now_contract_witness :
    (stW.peers "B" = none ∧ ping_peer_now 5 stW "B" .err = (none, stW, [])) ∧
    (stW.peers "A" = some wA ∧
     (ping_peer_now 5 stW "A" (.alive 7 1 1)).2.2 = [wA.vpn_ip] ∧
     (ping_peer_now 5 stW "A" (.alive 7 1 1)).1 =
       some (to_dict (update_peer_after_ping 5 wA
         (do_ping stW.stats (.alive 7 1 1)).2))) :=
  ⟨⟨by decide, (ping_peer_now_contract 5 stW "B" .err).1 (by decide)⟩,
   ⟨by decide, (ping_peer_now_contract 5 stW "A" (.alive 7 1 1)).2 wA (by decide)⟩⟩

/-- C10: a forced probe of a registered peer mutates only the ping fields
of that record — last probe time, last probe success, round-trip time and
the two counters — leaving its classified status, pingable flag, last
handshake, last endpoint, endpoint-changed flag and identity untouched,
and every other peer's record unchanged. -/
theorem ping_peer_now_frame (now : Rat) (st : MonitorState) (pk : String)
    (o : PingOutcome) (h : PeerHealthInfo) (hh : st.peers pk = some h) :
    ∃ h2, (ping_peer_now now st pk o).2.1.peers pk = some h2 ∧
      h2.status = h.status ∧ h2.is_pingable = h.is_pingable ∧
      h2.last_handshake = h.last_handshake ∧
      h2.last_endpoint = h.last_endpoint ∧
      h2.endpoint_changed = h.endpoint_changed ∧
      h2.public_key = h.public_key ∧ h2.vpn_ip = h.vpn_ip ∧
      h2.interface = h.interface ∧ h2.name = h.name ∧
      h2.last_ping_time = some now ∧ h2.last_ping_success = o.success ∧
      h2.ping_success_count =
        h.ping_success_count + (if o.success = true then 1 else 0) ∧
      h2.ping_fail_count =
        h.ping_fail_count + (if o.success = true then 0 else 1) ∧
      (∀ k, k ≠ pk → (ping_peer_now now st pk o).2.1.peers k = st.peers k) := by
  refine ⟨update_peer_after_ping now h (do_ping st.stats o).2, ?_, rfl, rfl,
    rfl, rfl, rfl, rfl, rfl, rfl, rfl, rfl, ?_, ?_, ?_, ?_⟩
  · simp [ping_peer_now, hh, updatePeer]
  · exact do_ping_success_eq st.stats o
  · simp [update_peer_after_ping, do_ping_success_eq]
  · simp [update_peer_after_ping, do_ping_success_eq]
  · intro k hk
    simp [ping_peer_now, hh, updatePeer, hk]

/-- Witness for C10 at a concrete registered peer. -/
theorem ping_peer_now_frame_witness :
    stW.peers "A" = some wA ∧
    (∃ h2, (ping_peer_now 5 stW "A" .err).2.1.peers "A" = some h2 ∧
      h2.status = wA.status ∧ h2.is_pingable = wA.is_pingable ∧
      h2.last_handshake = wA.last_handshake ∧
      h2.last_endpoint = wA.last_endpoint ∧
      h2.endpoint_changed = wA.endpoint_changed ∧
      h2.public_key = wA.public_key ∧ h2.vpn_ip = wA.vpn_ip ∧
      h2.interface = wA.interface ∧ h2.name = wA.name ∧
      h2.last_ping_time = some 5 ∧ h2.last_ping_success = (PingOutcome.err).success ∧
      h2.ping_success_count =
        wA.ping_success_count + (if (PingOutcome.err).success = true then 1 else 0) ∧
      h2.ping_fail_count =
        wA.ping_fail_count + (if (PingOutcome.err).success = true then 0 else 1) ∧
      (∀ k, k ≠ "A" → (ping_peer_now 5 stW "A" .err).2.1.peers k = stW.peers k)) :=
  ⟨by decide, ping_peer_now_frame 5 stW "A" .err wA (by decide)⟩

/-- C2 counterexample: a peer whose previously recorded endpoint is the
`"(none)"` sentinel and whose currently reported endpoint is a real
address gets its endpoint-changed flag set by the code, although the
claim's condition (neither side is the sentinel) is false there. -/
theorem endpoint_flag_spec_counterexample :
    prevEndpoint stNone "P" = "(none)" ∧
    piP.endpoint = "10.8.0.2:51820" ∧
    (peerAfter (check_peer 1000 stNone piP ({} : CycleResults) .err).1
      "P").endpoint_changed = true ∧
    ¬ spec_endpoint_changed (prevEndpoint stNone "P") piP.endpoint := by
  refine ⟨by decide, by decide, by decide, ?_⟩
  intro hspec
  exact hspec.2.1 (by decide)

/-- C2 amended: in every cycle, for every reported peer, the
endpoint-changed flag is set (and both the per-cycle and aggregate
endpoint-change counters incremented) exactly when the previously recorded
endpoint string is non-empty, differs from the currently reported one, and
the current one is not the `"(none)"` sentinel; in every other case —
including a previously recorded `""` (first observation) even though a
previous `"(none)"` does not suppress it — the flag is cleared; the
current endpoint is always recorded for the next cycle. -/
theorem endpoint_flag_characterization (now : Rat) (st : MonitorState)
    (pi : PeerInput) (results : CycleResults) (o : PingOutcome) :
    (peerAfter (check_peer now st pi results o).1 pi.public_key).endpoint_changed =
      (prevEndpoint st pi.public_key != "" &&
       prevEndpoint st pi.public_key != pi.endpoint &&
       pi.endpoint != "(none)") ∧
    (peerAfter (check_peer now st pi results o).1 pi.public_key).last_endpoint =
      pi.endpoint ∧
    (check_peer now st pi results o).2.1.endpoint_changes =
      results.endpoint_changes +
        (if (prevEndpoint st pi.public_key != "" &&
             prevEndpoint st pi.public_key != pi.endpoint &&
             pi.endpoint != "(none)") = true then 1 else 0) ∧
    (check_peer now st pi results o).1.stats.endpoint_updates =
      st.stats.endpoint_updates +
        (if (prevEndpoint st pi.public_key != "" &&
             prevEndpoint st pi.public_key != pi.endpoint &&
             pi.endpoint != "(none)") = true then 1 else 0) := by
  cases hp0 : st.peers pi.public_key with
  | none =>
    cases hp : parse_handshake_age now pi.latest_handshake with
    | error e =>
      refine ⟨?_, ?_, ?_, ?_⟩ <;>
        simp [check_peer, hp0, hp, prevEndpoint, peerAfter, updatePeer]
    | ok v =>
      cases v with
      | none =>
        refine ⟨?_, ?_, ?_, ?_⟩ <;>
          simp [check_peer, hp0, hp, prevEndpoint, peerAfter, updatePeer]
      | some a =>
        cases o <;>
          refine ⟨?_, ?_, ?_, ?_⟩ <;>
          simp [check_peer, hp0, hp, prevEndpoint, peerAfter, updatePeer,
            do_ping, update_peer_after_ping] <;>
          split_ifs <;>
          simp [updatePeer, peerAfter]
  | some h =>
    cases hp : parse_handshake_age now pi.latest_handshake with
    | error e =>
      refine ⟨?_, ?_, ?_, ?_⟩ <;>
        simp [check_peer, hp0, hp, prevEndpoint, peerAfter, updatePeer]
    | ok v =>
      cases v with
      | none =>
        refine ⟨?_, ?_, ?_, ?_⟩ <;>
          simp [check_peer, hp0, hp, prevEndpoint, peerAfter, updatePeer]
      | some a =>
        cases o <;>
          refine ⟨?_, ?_, ?_, ?_⟩ <;>
          simp [check_peer, hp0, hp, prevEndpoint, peerAfter, updatePeer,
            do_ping, update_peer_after_ping] <;>
          split_ifs <;>
          simp [updatePeer, peerAfter]

end PeerHealthMonitor
